import Mathlib

/-!
Verification of the `mastr-analysis` fetch/merge toolchain.

This file gives a shallow embedding of the relevant parts of
`master_fetch.py`, `fetch_anlagenbetreiber.py`, `fetch_marktakteur.py`
and `fetch_filtered_storage.py`, and proves the spec-level properties
of those functions.  Machine floats in the source (`0.2`, `10.0`,
`float(...)`) are modelled as exact rationals; the doubling/cap
arithmetic of the retry loop and the decimal comparisons of the filter
are exact in both representations on the values exercised here.
-/

set_option autoImplicit false

namespace Mastr

/-- JSON-like value tree: the output type of `zeep_to_dict`
(`master_fetch.py`, lines 198-240).  `null` is Python `None`; `num`
covers Python `int`/`float` (modelled as exact rationals); `dict` is a
Python dict as a key/value list in insertion order. -/
inductive Tree where
  | null : Tree
  | bool : Bool → Tree
  | num : ℚ → Tree
  | str : String → Tree
  | list : List Tree → Tree
  | dict : List (String × Tree) → Tree

/-- Model of a Python value as seen by `zeep_to_dict`: `none` is `None`,
`dt` is an object whose `isoformat()` returns the given string, `obj` is
a zeep complex object listing its accessible (non-callable, as produced
by `dir()`) fields, and `other` is any other value, with `str(obj)`
giving the carried string.  Callables and attribute-access errors are
skipped by the source loop and are not represented. -/
inductive PyVal where
  | none : PyVal
  | bool : Bool → PyVal
  | num : ℚ → PyVal
  | str : String → PyVal
  | dt : String → PyVal
  | list : List PyVal → PyVal
  | obj : List (String × PyVal) → PyVal
  | other : String → PyVal

/-! ### Character-list string primitives

Lean's `String.startsWith`, `String.trim`, `String.toLower` are
implemented on byte positions and do not reduce inside the kernel, so
the Python string operations are modelled directly on the character
list. -/

/-- Whether `needle` (second argument) occurs at the start of `hay`. -/
def startsWithChars : List Char → List Char → Bool
  | _, [] => true
  | [], _ :: _ => false
  | c :: cs, d :: ds => c == d && startsWithChars cs ds

/-- Whether `needle` occurs somewhere in `hay` (second argument). -/
def hasInfixChars (needle : List Char) : List Char → Bool
  | [] => startsWithChars [] needle
  | c :: cs => startsWithChars (c :: cs) needle || hasInfixChars needle cs

/-- Python substring test `needle in hay`. -/
def strContains (hay needle : String) : Bool :=
  hasInfixChars needle.data hay.data

/-- Drop leading whitespace characters. -/
def dropLeadingSpace : List Char → List Char
  | [] => []
  | c :: cs => if c.isWhitespace then dropLeadingSpace cs else c :: cs

/-- Python `s.strip()`: remove leading and trailing whitespace. -/
def pyStrip (s : String) : String :=
  String.mk ((dropLeadingSpace ((dropLeadingSpace s.data).reverse)).reverse)

/-- ASCII lowercase of one character. -/
def lowerChar (c : Char) : Char :=
  if 65 ≤ c.toNat ∧ c.toNat ≤ 90 then Char.ofNat (c.toNat + 32) else c

/-- Python `s.lower()` restricted to ASCII (the only uppercase letters
exercised by the criteria are ASCII; non-ASCII uppercase letters pass
through unchanged). -/
def pyLower (s : String) : String :=
  String.mk (s.data.map lowerChar)

/-- A tree value that the normalizer prunes from mappings, exactly the
test `v is not None and v != {} and v != []` of `master_fetch.py` line
237 (here as "is one of the pruned shapes"). -/
def isEmptyVal : Tree → Bool
  | .null => true
  | .dict [] => true
  | .list [] => true
  | _ => false

mutual

/-- Source `master_fetch.py`, `zeep_to_dict` (lines 198-240): normalize a zeep
response value into a JSON-able tree.  The `obj` branch enumerates the
fields, skips private-prefixed names and the `_xsd_type`/`_value_1`
artifacts, recursively converts each field, and then drops entries whose
value is `None`, `{}` or `[]`. -/
def zeep_to_dict : PyVal → Tree
  | .none => .null
  | .list xs => .list (zeepList xs)
  | .bool b => .bool b
  | .num q => .num q
  | .str s => .str s
  | .dt iso => .str iso
  | .obj fs => .dict ((zeepFields fs).filter fun p => !isEmptyVal p.2)
  | .other s => .str s

/-- Elementwise normalization of a Python list (`[zeep_to_dict(x) for x
in obj]`, line 206). -/
def zeepList : List PyVal → List Tree
  | [] => []
  | x :: xs => zeep_to_dict x :: zeepList xs

/-- The field-enumeration loop of `zeep_to_dict` (lines 220-235): keep a
field unless its name is private-prefixed or one of the two skipped
artifacts, normalizing each kept value. -/
def zeepFields : List (String × PyVal) → List (String × Tree)
  | [] => []
  | (k, v) :: fs =>
      if !startsWithChars k.data ['_'] && k != "_xsd_type" && k != "_value_1"
      then (k, zeep_to_dict v) :: zeepFields fs
      else zeepFields fs

end

mutual

/-- Recursive invariant: no mapping anywhere in the tree has an entry
whose value is `None`, an empty mapping, or an empty sequence. -/
def noEmptyVals : Tree → Bool
  | .dict kvs => noEmptyFields kvs
  | .list xs => noEmptyList xs
  | _ => true

/-- Predicate `noEmptyVals` on every element of a sequence. -/
def noEmptyList : List Tree → Bool
  | [] => true
  | x :: xs => noEmptyVals x && noEmptyList xs

/-- Every entry of a mapping has a non-pruned value that itself
satisfies the invariant. -/
def noEmptyFields : List (String × Tree) → Bool
  | [] => true
  | (_, v) :: kvs => !isEmptyVal v && noEmptyVals v && noEmptyFields kvs

end

mutual

theorem zeep_noEmpty : (p : PyVal) → noEmptyVals (zeep_to_dict p) = true
  | .none => rfl
  | .bool _ => rfl
  | .num _ => rfl
  | .str _ => rfl
  | .dt _ => rfl
  | .other _ => rfl
  | .list xs => by
      simp only [zeep_to_dict, noEmptyVals]
      exact zeepList_noEmpty xs
  | .obj fs => by
      simp only [zeep_to_dict, noEmptyVals]
      exact zeepFields_noEmpty fs

theorem zeepList_noEmpty : (xs : List PyVal) → noEmptyList (zeepList xs) = true
  | [] => rfl
  | x :: xs => by
      simp only [zeepList, noEmptyList, Bool.and_eq_true]
      exact ⟨zeep_noEmpty x, zeepList_noEmpty xs⟩

theorem zeepFields_noEmpty :
    (fs : List (String × PyVal)) →
      noEmptyFields ((zeepFields fs).filter fun p => !isEmptyVal p.2) = true
  | [] => rfl
  | (k, v) :: fs => by
      simp only [zeepFields]
      by_cases hk : (!startsWithChars k.data ['_'] && k != "_xsd_type" && k != "_value_1") = true
      · simp only [hk, if_true, List.filter]
        by_cases he : isEmptyVal (zeep_to_dict v) = true
        · simp only [he, Bool.not_true]
          exact zeepFields_noEmpty fs
        · simp only [Bool.not_eq_true] at he
          simp only [he, Bool.not_false, noEmptyFields, Bool.and_eq_true]
          exact ⟨⟨by simp [he], zeep_noEmpty v⟩, zeepFields_noEmpty fs⟩
      · simp only [Bool.not_eq_true] at hk
        simp only [hk, if_false]
        exact zeepFields_noEmpty fs

end

/-- C6: every mapping occurring anywhere in the tree returned by
`zeep_to_dict` contains no key whose value is null, an empty mapping, or
an empty sequence. -/
theorem zeep_to_dict_drops_empty_values (p : PyVal) :
    noEmptyVals (zeep_to_dict p) = true :=
  zeep_noEmpty p

/-! ### Retry/backoff engine: `fetch_marktakteur_with_retry`
(`fetch_anlagenbetreiber.py` lines 38-95; `fetch_marktakteur.py` has the
byte-identical function at the same lines) -/

/-- Behaviour of one remote `GetMarktakteur` call: a response value of
any shape, a `zeep.exceptions.Fault` whose `str()` is `msg`, or any
other exception whose `str()` is `msg`. -/
inductive Call where
  | success : PyVal → Call
  | fault : String → Call
  | exc : String → Call

/-- Python `x is None` on a modelled value. -/
def isNonePy : PyVal → Bool
  | .none => true
  | _ => false

/-- Python `getattr(resp, "Marktakteur", None)` (line 60): the field value when
the response object carries the attribute, `None` otherwise. -/
def getattrMarktakteur : PyVal → PyVal
  | .obj fs =>
      match fs.find? (fun p => p.1 == "Marktakteur") with
      | some p => p.2
      | none => .none
  | _ => .none

/-- Lines 60-64: extract the data from a successful response — prefer
the `Marktakteur` attribute, fall back to the response itself, and
return `None` (never calling `zeep_to_dict`) only when both are `None`. -/
def respData (resp : PyVal) : Option Tree :=
  let a := getattrMarktakteur resp
  let obj := if isNonePy a then resp else a
  if isNonePy obj then none else some (zeep_to_dict obj)

/-- Line 75: fault message classified as not-found. -/
def notFoundMsg (msg : String) : Bool :=
  strContains msg "MarktakteurNichtGefunden" || strContains msg "MarktakteurUnbekannt"

/-- Line 80: fault message classified as rate-limited. -/
def rateLimitMsg (msg : String) : Bool :=
  strContains msg "ToManyRequests" || strContains msg "429"

/-- Result of one retried fetch: the returned triple
`(mastr_nummer, data_dict, error_message)` plus two ghost observations —
the number of remote calls actually made and the backoff delays slept,
in order.  The source returns only the first three components. -/
structure FetchResult where
  rid : String
  data : Option Tree
  error : Option String
  attempts : Nat
  sleeps : List ℚ

/-- The `for attempt in range(max_retries)` loop of
`fetch_marktakteur_with_retry` (lines 49-95).  `fuel` is the number of
loop iterations still allowed, `attempt` the current attempt index,
`delay` the current backoff delay in seconds, `calls`/`slept` the ghost
accumulators.  Falling out of the loop returns the `retry_exhausted`
outcome (lines 94-95). -/
def fetchLoop (behav : Nat → Call) (target : String) :
    Nat → Nat → ℚ → Nat → List ℚ → FetchResult
  | 0, _, _, calls, slept =>
      ⟨target, none, some "retry_exhausted", calls, slept.reverse⟩
  | fuel + 1, attempt, delay, calls, slept =>
      match behav attempt with
      | .success resp => ⟨target, respData resp, none, calls + 1, slept.reverse⟩
      | .fault msg =>
          if notFoundMsg msg then
            ⟨target, none, some "not_found", calls + 1, slept.reverse⟩
          else if rateLimitMsg msg then
            fetchLoop behav target fuel (attempt + 1) (min (delay * 2) 10)
              (calls + 1) (delay :: slept)
          else
            ⟨target, none, some ("fault:" ++ msg), calls + 1, slept.reverse⟩
      | .exc msg => ⟨target, none, some ("exception:" ++ msg), calls + 1, slept.reverse⟩

/-- Source `fetch_marktakteur_with_retry(client, target, max_retries)`: the
remote behaviour `behav` stands for the client plus network, giving the
outcome of the call made on each attempt index.  Initial delay `0.2` s
(line 47). -/
def fetch_marktakteur_with_retry (behav : Nat → Call) (target : String)
    (max_retries : Nat) : FetchResult :=
  fetchLoop behav target max_retries 0 (1 / 5 : ℚ) 0 []

/-- Outcome shape actually guaranteed by the code: either the error is
null (a successful call; the data is then the normalization of the
response, which may be null or empty), or the data is null and the error
is exactly one of the four failure tags. -/
def outcomeShape (r : FetchResult) : Prop :=
  r.error = none ∨
    (r.data = none ∧
      (r.error = some "not_found" ∨ r.error = some "retry_exhausted" ∨
        (∃ m, r.error = some ("fault:" ++ m)) ∨
        (∃ m, r.error = some ("exception:" ++ m))))

theorem fetchLoop_spec (behav : Nat → Call) (target : String) :
    ∀ fuel attempt delay calls slept,
      (fetchLoop behav target fuel attempt delay calls slept).rid = target ∧
        outcomeShape (fetchLoop behav target fuel attempt delay calls slept) := by
  intro fuel
  induction fuel with
  | zero =>
      intro attempt delay calls slept
      exact ⟨rfl, Or.inr ⟨rfl, Or.inr (Or.inl rfl)⟩⟩
  | succ fuel ih =>
      intro attempt delay calls slept
      simp only [fetchLoop]
      cases behav attempt with
      | success resp => exact ⟨rfl, Or.inl rfl⟩
      | fault msg =>
          by_cases hnf : notFoundMsg msg = true

          · simp only [hnf, if_true]
            exact ⟨by trivial, Or.inr ⟨rfl, Or.inl rfl⟩⟩
          · simp only [Bool.not_eq_true] at hnf
            simp only [hnf, Bool.false_eq_true, if_false]
            by_cases hrl : rateLimitMsg msg = true
            · simp only [hrl, if_true]
              exact ih (attempt + 1) (min (delay * 2) 10) (calls + 1) (delay :: slept)
            · simp only [Bool.not_eq_true] at hrl
              simp only [hrl, Bool.false_eq_true, if_false]
              exact ⟨by trivial, Or.inr ⟨rfl, Or.inr (Or.inr (Or.inl ⟨msg, rfl⟩))⟩⟩
      | exc msg => exact ⟨rfl, Or.inr ⟨rfl, Or.inr (Or.inr (Or.inr ⟨msg, rfl⟩))⟩⟩

/-- C2 (amended): for every identifier and every behaviour of the remote
call, `fetch_marktakteur_with_retry` returns a triple
`(identifier, data, error)` without raising (the embedding is a total
function), and either the error is null — the data is then the
normalized response, which may itself be null or empty when the response
is null or empty — or the data is null and the error is exactly one of
`not_found`, `retry_exhausted`, `fault:…`, `exception:…`. -/
theorem fetch_with_retry_outcome_shape (behav : Nat → Call) (target : String)
    (max_retries : Nat) :
    (fetch_marktakteur_with_retry behav target max_retries).rid = target ∧
      outcomeShape (fetch_marktakteur_with_retry behav target max_retries) :=
  fetchLoop_spec behav target max_retries 0 (1 / 5) 0 []

/-- C2 counterexample: a successful remote call whose response is `None`
(lines 60-64 handle exactly this case) yields the outcome
`(id, data = null, error = null)` — data null yet error null, which is
none of the four tags the claim allows, and in particular not a
data-tagged outcome with a non-null, non-empty record. -/
theorem fetch_with_retry_none_response_cx :
    (fetch_marktakteur_with_retry (fun _ => .success .none) "SNB942848847498" 6).data
        = none ∧
      (fetch_marktakteur_with_retry (fun _ => .success .none) "SNB942848847498" 6).error
        = none :=
  ⟨rfl, rfl⟩

/-- A remote call outcome that takes the rate-limit branch of the
classifier: a fault whose message matches the 429 pattern and not the
not-found pattern (which is tested first). -/
def rateLimitedCall (c : Call) : Prop :=
  ∃ m, c = .fault m ∧ notFoundMsg m = false ∧ rateLimitMsg m = true

/-- C3: an identifier whose remote call is rate-limited on every attempt
terminates after exactly 6 attempts with the `retry_exhausted` outcome;
the delays slept are the doubling sequence 0.2, 0.4, 0.8, 1.6, 3.2, 6.4
(cap 10 s never reached), and the total sleep time is exactly
0.2 + 0.4 + 0.8 + 1.6 + 3.2 + 6.4 = 12.6 s, hence at most 12.6 s. -/
theorem fetch_with_retry_rate_limit_exhausts (behav : Nat → Call) (target : String)
    (h : ∀ n, rateLimitedCall (behav n)) :
    (fetch_marktakteur_with_retry behav target 6).rid = target ∧
      (fetch_marktakteur_with_retry behav target 6).data = none ∧
      (fetch_marktakteur_with_retry behav target 6).error = some "retry_exhausted" ∧
      (fetch_marktakteur_with_retry behav target 6).attempts = 6 ∧
      (fetch_marktakteur_with_retry behav target 6).sleeps
        = [1 / 5, 2 / 5, 4 / 5, 8 / 5, 16 / 5, 32 / 5] ∧
      (fetch_marktakteur_with_retry behav target 6).sleeps.sum ≤ 63 / 5 := by
  obtain ⟨m0, e0, nf0, rl0⟩ := h 0
  obtain ⟨m1, e1, nf1, rl1⟩ := h 1
  obtain ⟨m2, e2, nf2, rl2⟩ := h 2
  obtain ⟨m3, e3, nf3, rl3⟩ := h 3
  obtain ⟨m4, e4, nf4, rl4⟩ := h 4
  obtain ⟨m5, e5, nf5, rl5⟩ := h 5
  simp only [fetch_marktakteur_with_retry, fetchLoop, e0, e1, e2, e3, e4, e5,
    nf0, nf1, nf2, nf3, nf4, nf5, rl0, rl1, rl2, rl3, rl4, rl5,
    Bool.false_eq_true, if_false, if_true, List.reverse_cons, List.reverse_nil]
  norm_num [min_def, List.sum_cons]

/-- C3 witness instance: the constant behaviour `fault "429"`. -/
theorem fetch_with_retry_rate_limit_exhausts_witness :
    (fetch_marktakteur_with_retry (fun _ => .fault "429") "SNB900000000001" 6).rid
        = "SNB900000000001" ∧
      (fetch_marktakteur_with_retry (fun _ => .fault "429") "SNB900000000001" 6).data
        = none ∧
      (fetch_marktakteur_with_retry (fun _ => .fault "429") "SNB900000000001" 6).error
        = some "retry_exhausted" ∧
      (fetch_marktakteur_with_retry (fun _ => .fault "429") "SNB900000000001" 6).attempts
        = 6 ∧
      (fetch_marktakteur_with_retry (fun _ => .fault "429") "SNB900000000001" 6).sleeps
        = [1 / 5, 2 / 5, 4 / 5, 8 / 5, 16 / 5, 32 / 5] ∧
      (fetch_marktakteur_with_retry (fun _ => .fault "429") "SNB900000000001" 6).sleeps.sum
        ≤ 63 / 5 :=
  fetch_with_retry_rate_limit_exhausts (fun _ => .fault "429") "SNB900000000001"
    (fun _ => ⟨"429", rfl, rfl, rfl⟩)

/-- C4: a first remote call whose fault message matches the not-found
pattern returns the `not_found` outcome after exactly one remote
attempt, with no sleep — regardless of the later behaviour.  Stated at
the default `max_retries = 6` of the claim. -/
theorem fetch_with_retry_not_found_short_circuit (behav : Nat → Call)
    (target m : String) (h0 : behav 0 = .fault m) (hnf : notFoundMsg m = true) :
    fetch_marktakteur_with_retry behav target 6
      = ⟨target, none, some "not_found", 1, []⟩ := by
  simp [fetch_marktakteur_with_retry, fetchLoop, h0, hnf]

/-- C4 witness instance: the fault message `MarktakteurNichtGefunden`. -/
theorem fetch_with_retry_not_found_short_circuit_witness :
    fetch_marktakteur_with_retry (fun _ => .fault "MarktakteurNichtGefunden")
        "SNB900000000002" 6
      = ⟨"SNB900000000002", none, some "not_found", 1, []⟩ :=
  fetch_with_retry_not_found_short_circuit (fun _ => .fault "MarktakteurNichtGefunden")
    "SNB900000000002" "MarktakteurNichtGefunden" rfl rfl

/-! ### Batch orchestrator: `batch_fetch_marktakteure`
(`fetch_anlagenbetreiber.py` lines 98-133; `fetch_marktakteur.py` lines
98-124 differ only in logging) -/

/-- One entry of the batch result map:
`results[mastr_num] = dict ... ` with the `data` and `error` slots of the
fetched triple. -/
structure BatchEntry where
  data : Option Tree
  error : Option String

/-- Python `results[key] = value` on an insertion-ordered dict: replace
the binding in place when the key is present (keys of a Python dict are
unique, so replacing the first occurrence is the dict behaviour), or
append a new binding at the end. -/
def dictInsert {α : Type} (m : List (String × α)) (k : String) (v : α) :
    List (String × α) :=
  match m with
  | [] => [(k, v)]
  | p :: rest => if p.1 == k then (k, v) :: rest else p :: dictInsert rest k v

/-- Source `batch_fetch_marktakteure(client, mastr_nums, max_workers)`: one
`fetch_marktakteur_with_retry` future is submitted per element of
`mastr_nums`; `as_completed` yields the finished futures in an arbitrary
order, modelled by the `order` argument (any permutation of the input
list); each completed triple is stored under the identifier the fetch
returned.  `behavOf` gives the remote behaviour per identifier. -/
def batch_fetch_marktakteure (behavOf : String → Nat → Call) (max_retries : Nat)
    (order : List String) : List (String × BatchEntry) :=
  order.foldl
    (fun results n =>
      let r := fetch_marktakteur_with_retry (behavOf n) n max_retries
      dictInsert results r.rid ⟨r.data, r.error⟩)
    []

theorem dictInsert_keys {α : Type} (k : String) (v : α) :
    ∀ m : List (String × α),
      (dictInsert m k v).map Prod.fst
        = if k ∈ m.map Prod.fst then m.map Prod.fst else m.map Prod.fst ++ [k] := by
  intro m
  induction m with
  | nil => simp [dictInsert]
  | cons p rest ih =>
      by_cases hp : p.1 = k
      · simp [dictInsert, hp]
      · have hne : ¬(p.1 == k) = true := by simp [hp]
        simp only [dictInsert, hne, Bool.false_eq_true, if_false, List.map_cons]
        rw [ih]
        by_cases hk : k ∈ rest.map Prod.fst
        · simp [hk, Ne.symm hp, List.mem_cons]
        · simp [hk, Ne.symm hp, List.mem_cons]

theorem batch_fetch_go_keys (behavOf : String → Nat → Call) (max_retries : Nat) :
    ∀ (order : List String) (acc : List (String × BatchEntry)),
      (((order.foldl
            (fun results n =>
              let r := fetch_marktakteur_with_retry (behavOf n) n max_retries
              dictInsert results r.rid ⟨r.data, r.error⟩)
            acc).map Prod.fst).Nodup ↔ (acc.map Prod.fst).Nodup) ∧
        ∀ k, k ∈ (order.foldl
            (fun results n =>
              let r := fetch_marktakteur_with_retry (behavOf n) n max_retries
              dictInsert results r.rid ⟨r.data, r.error⟩)
            acc).map Prod.fst ↔ (k ∈ acc.map Prod.fst ∨ k ∈ order) := by
  intro order
  induction order with
  | nil => intro acc; simp
  | cons n rest ih =>
      intro acc
      have hrid : (fetch_marktakteur_with_retry (behavOf n) n max_retries).rid = n :=
        (fetchLoop_spec (behavOf n) n max_retries 0 (1 / 5) 0 []).1
      simp only [List.foldl_cons]
      have hkeys := dictInsert_keys
        (fetch_marktakteur_with_retry (behavOf n) n max_retries).rid
        (⟨(fetch_marktakteur_with_retry (behavOf n) n max_retries).data,
          (fetch_marktakteur_with_retry (behavOf n) n max_retries).error⟩ : BatchEntry)
        acc
      rw [hrid] at hkeys
      obtain ⟨ihn, ihm⟩ := ih (dictInsert acc n
        ⟨(fetch_marktakteur_with_retry (behavOf n) n max_retries).data,
          (fetch_marktakteur_with_retry (behavOf n) n max_retries).error⟩)
      rw [hrid]
      constructor
      · rw [ihn, hkeys]
        by_cases hmem : n ∈ acc.map Prod.fst
        · simp [hmem]
        · simp [hmem, List.Nodup.append, List.nodup_append, hmem]
      · intro k
        rw [ihm k, hkeys]
        by_cases hmem : n ∈ acc.map Prod.fst
        · simp only [hmem, if_true, List.mem_cons]
          constructor
          · rintro (hk | hk)
            · exact Or.inl hk
            · exact Or.inr (Or.inr hk)
          · rintro (hk | hk | hk)
            · exact Or.inl hk
            · exact Or.inl (hk ▸ hmem)
            · exact Or.inr hk
        · simp only [hmem, if_false, List.mem_append, List.mem_singleton,
            List.mem_cons]
          tauto

/-- C1: for every finite list of identifiers and every completion order
of the concurrent futures (any permutation of the input list), the batch
result map's key set is exactly the set of input identifiers — every
requested identifier appears as a key exactly once (the key list has no
duplicates), and no other key appears — regardless of the per-identifier
outcome. -/
theorem batch_fetch_key_set (behavOf : String → Nat → Call) (max_retries : Nat)
    (mastr_nums order : List String) (h : order.Perm mastr_nums) :
    ((batch_fetch_marktakteure behavOf max_retries order).map Prod.fst).Nodup ∧
      ∀ k, k ∈ (batch_fetch_marktakteure behavOf max_retries order).map Prod.fst
        ↔ k ∈ mastr_nums := by
  obtain ⟨hn, hm⟩ := batch_fetch_go_keys behavOf max_retries order []
  refine ⟨hn.mpr (by simp), fun k => ?_⟩
  rw [batch_fetch_marktakteure, hm k]
  simp only [List.map_nil, List.not_mem_nil, false_or]
  exact ⟨fun hk => h.mem_iff.mp hk, fun hk => h.mem_iff.mpr hk⟩

/-- C1 witness instance: two identifiers completing in reversed order,
one not-found and one failing, still yield exactly the requested key
set. -/
theorem batch_fetch_key_set_witness :
    ((batch_fetch_marktakteure
          (fun _ _ => .fault "MarktakteurUnbekannt") 6 ["B", "A"]).map Prod.fst).Nodup ∧
      ∀ k, k ∈ (batch_fetch_marktakteure
          (fun _ _ => .fault "MarktakteurUnbekannt") 6 ["B", "A"]).map Prod.fst
        ↔ k ∈ ["A", "B"] :=
  batch_fetch_key_set (fun _ _ => .fault "MarktakteurUnbekannt") 6 ["A", "B"]
    ["B", "A"] (by decide)

/-! ### Paginated listing iterators: `MastrClient.iter_einheiten`
(`master_fetch.py` lines 151-182) and
`MastrClient.iter_marktakteure_by_role` (lines 96-134)

A SOAP fault in either loop re-raises as `RuntimeError`, ending the
iteration without a result; the claims stub a non-faulting listing
source, so `src` below is total.  The optional inter-page sleep only
delays the loop and is omitted. -/

/-- Source `iter_einheiten(limit, ...)`: page through `GetListeAlleEinheiten`
with the offset cursor `startAb`, starting at 0 and advancing by `limit`
after each page; stop after the first page with fewer than `limit`
items, yielding `zeep_to_dict` of every item of every fetched page in
order.  `src` maps the requested offset to the page's item list
(`getattr(resp, "Einheiten", None) or []`); `fuel` bounds the number of
pages the otherwise-unbounded generator is driven through, `none`
meaning the iteration did not finish within `fuel` pages.  The result
carries the yielded items and the number of remote calls made. -/
def iter_einheiten (src : Nat → List PyVal) (limit : Nat) :
    Nat → Nat → Option (List Tree × Nat)
  | 0, _ => none
  | fuel + 1, start =>
      let items := src start
      if items.length < limit then some (zeepList items, 1)
      else
        match iter_einheiten src limit fuel (start + limit) with
        | none => none
        | some (rest, calls) => some (zeepList items ++ rest, calls + 1)

/-- Source `iter_marktakteure_by_role(role_code, limit, ...)`: the same
pagination loop over `GetGefilterteListeMarktakteure` (items from
`getattr(resp, "Marktakteure", None) or []`); the role filter and delta
timestamp only parametrize the remote call, which `src` abstracts. -/
def iter_marktakteure_by_role (src : Nat → List PyVal) (limit : Nat) :
    Nat → Nat → Option (List Tree × Nat)
  | 0, _ => none
  | fuel + 1, start =>
      let items := src start
      if items.length < limit then some (zeepList items, 1)
      else
        match iter_marktakteure_by_role src limit fuel (start + limit) with
        | none => none
        | some (rest, calls) => some (zeepList items ++ rest, calls + 1)

theorem iter_marktakteure_eq_iter_einheiten (src : Nat → List PyVal) (limit : Nat) :
    ∀ fuel start,
      iter_marktakteure_by_role src limit fuel start
        = iter_einheiten src limit fuel start := by
  intro fuel
  induction fuel with
  | zero => intro start; rfl
  | succ fuel ih =>
      intro start
      simp only [iter_marktakteure_by_role, iter_einheiten, ih (start + limit)]

theorem iter_einheiten_pages (src : Nat → List PyVal) (limit : Nat) :
    ∀ (n start : Nat),
      (∀ k, k < n → (src (start + k * limit)).length = limit) →
      (src (start + n * limit)).length < limit →
      ∀ extra,
        iter_einheiten src limit (n + 1 + extra) start
          = some ((((List.range (n + 1)).map
              fun k => zeepList (src (start + k * limit))).flatten, n + 1)) := by
  intro n
  induction n with
  | zero =>
      intro start _ hshort extra
      have h0 : (src start).length < limit := by simpa using hshort
      rw [show 0 + 1 + extra = extra + 1 from by omega]
      simp [iter_einheiten, h0, List.range_succ]
  | succ n ih =>
      intro start hfull hshort extra
      have h0 : (src start).length = limit := by simpa using hfull 0 (Nat.succ_pos n)
      have hrec := ih (start + limit)
        (fun k hk => by
          have h := hfull (k + 1) (Nat.succ_lt_succ hk)
          rwa [show start + (k + 1) * limit = start + limit + k * limit from by ring]
            at h)
        (by rwa [show start + (n + 1) * limit = start + limit + n * limit from by ring]
              at hshort)
        extra
      have hcond : ¬((src start).length < limit) := by omega
      rw [show n + 1 + 1 + extra = (n + 1 + extra) + 1 from by omega]
      have harm : ((List.range (n + 1 + 1)).map
            fun k => zeepList (src (start + k * limit))).flatten
          = zeepList (src start)
              ++ ((List.range (n + 1)).map
                fun k => zeepList (src (start + limit + k * limit))).flatten := by
        rw [List.range_succ_eq_map]
        simp only [List.map_cons, List.map_map, List.flatten_cons, Nat.zero_mul,
          Nat.add_zero]
        congr 2
        apply List.map_congr_left
        intro k _
        simp only [Function.comp, Nat.succ_eq_add_one]
        congr 2
        ring
      simp only [iter_einheiten, hcond, if_false, hrec, harm]

/-- C5: both paginated listing iterators request pages at offsets
0, limit, 2·limit, …; whenever the pages at offsets k·limit are full
(exactly `limit` items) for all k < n and the page at offset n·limit is
the first short one (fewer than `limit` items — in particular the empty
page after n full pages), the iteration terminates with exactly n+1
remote calls — so the empty page costs one extra call, and a short page
ends the iteration with no further call — and the items yielded are the
normalized items of all fetched pages in order.  `extra` shows the
result is independent of any additional fuel, i.e. the loop genuinely
stops. -/
theorem pagination_terminates (src : Nat → List PyVal) (limit n : Nat)
    (hfull : ∀ k, k < n → (src (k * limit)).length = limit)
    (hshort : (src (n * limit)).length < limit) (extra : Nat) :
    iter_einheiten src limit (n + 1 + extra) 0
        = some ((((List.range (n + 1)).map
            fun k => zeepList (src (k * limit))).flatten, n + 1)) ∧
      iter_marktakteure_by_role src limit (n + 1 + extra) 0
        = some ((((List.range (n + 1)).map
            fun k => zeepList (src (k * limit))).flatten, n + 1)) := by
  have h := iter_einheiten_pages src limit n 0
    (fun k hk => by simpa using hfull k hk) (by simpa using hshort) extra
  simp only [Nat.zero_add] at h
  exact ⟨h, by rw [iter_marktakteure_eq_iter_einheiten]; exact h⟩

/-- C5 witness instance: page size 2, one full page then the empty page;
both iterators make exactly 2 calls and yield the two items in order. -/
theorem pagination_terminates_witness :
    iter_einheiten (fun off => if off = 0 then [.str "a", .str "b"] else []) 2 2 0
        = some ((((List.range 2).map
            fun k => zeepList ((fun off : Nat =>
              if off = 0 then [PyVal.str "a", PyVal.str "b"] else []) (k * 2))).flatten,
            2)) ∧
      iter_marktakteure_by_role
          (fun off => if off = 0 then [.str "a", .str "b"] else []) 2 2 0
        = some ((((List.range 2).map
            fun k => zeepList ((fun off : Nat =>
              if off = 0 then [PyVal.str "a", PyVal.str "b"] else []) (k * 2))).flatten,
            2)) :=
  pagination_terminates (fun off => if off = 0 then [.str "a", .str "b"] else []) 2 1
    (fun k hk => by
      match k, hk with
      | 0, _ => rfl)
    (by simp) 0

/-! ### Filter/match engine: `matches_criteria`
(`fetch_filtered_storage.py` lines 42-183) -/

/-- Python truthiness of a normalized tree value. -/
def truthy : Tree → Bool
  | .null => false
  | .bool b => b
  | .num q => q != 0
  | .str s => s != ""
  | .list xs => !xs.isEmpty
  | .dict kvs => !kvs.isEmpty

/-- Python `a or b`: the first operand when truthy, otherwise the
second. -/
def tOr (a b : Tree) : Tree :=
  if truthy a then a else b

/-- Source `get_nested_value(data, *keys)` (lines 42-52): walk nested mappings
by the given keys; `None` as soon as a key is missing, a value is
`None`, or an intermediate value is not a mapping. -/
def get_nested_value : Tree → List String → Tree
  | t, [] => t
  | .dict kvs, k :: ks =>
      (match kvs.find? (fun p => p.1 == k) with
       | some p => get_nested_value p.2 ks
       | none => .null)
  | _, _ :: _ => .null

/-- The single-quote character used by the Python repr of strings. -/
def squote : String :=
  String.singleton (Char.ofNat 39)

mutual

/-- Python `repr()` of a normalized value, as used for elements inside
containers (string escaping and float formatting are abstracted; no
claim depends on the rendering of containers or numbers). -/
def pyRepr : Tree → String
  | .null => "None"
  | .bool true => "True"
  | .bool false => "False"
  | .num q => if q.den = 1 then toString q.num else toString q.num ++ "/" ++ toString q.den
  | .str s => squote ++ s ++ squote
  | .list xs => "[" ++ String.intercalate ", " (pyReprList xs) ++ "]"
  | .dict kvs => "\x7b" ++ String.intercalate ", " (pyReprFields kvs) ++ "\x7d"

def pyReprList : List Tree → List String
  | [] => []
  | x :: xs => pyRepr x :: pyReprList xs

def pyReprFields : List (String × Tree) → List String
  | [] => []
  | (k, v) :: kvs => (squote ++ k ++ squote ++ ": " ++ pyRepr v) :: pyReprFields kvs

end

/-- Python `str()` of a normalized value. -/
def pyStr : Tree → String
  | .str s => s
  | t => pyRepr t

/-- A digit run as a natural number. -/
def digitsToNat (l : List Char) : Nat :=
  l.foldl (fun a c => a * 10 + (c.toNat - 48)) 0

/-- Python `float(s)` on a string: surrounding whitespace ignored, optional
sign, decimal digits with an optional fractional part.  Exponent and
`inf`/`nan` forms are not modelled (no claim exercises them); any other
shape is `none`, modelling the `ValueError` caught on line 125.  A
locale comma is not accepted, as in Python. -/
def parseFloat? (s : String) : Option ℚ :=
  let cs := (pyStrip s).data
  let signed : ℚ × List Char :=
    match cs with
    | c :: rest =>
        if c = '-' then (-1, rest) else if c = '+' then (1, rest) else (1, cs)
    | [] => (1, [])
  match signed.2.splitOn '.' with
  | [intPart] =>
      if intPart ≠ [] ∧ intPart.all Char.isDigit
      then some (signed.1 * digitsToNat intPart)
      else none
  | [intPart, fracPart] =>
      if (intPart ++ fracPart) ≠ [] ∧ (intPart ++ fracPart).all Char.isDigit
      then some (signed.1 *
        (digitsToNat intPart + (digitsToNat fracPart : ℚ) / (10 ^ fracPart.length)))
      else none
  | _ => none

/-- Lines 116-127 applied to one resolved value: `float()` succeeds on
numbers, booleans (Python `bool` is an `int`) and well-formed numeric
strings; every other shape ends in `power_kw = None` or `ValueError`. -/
def pyFloatOf : Tree → Option ℚ
  | .num q => some q
  | .bool b => some (if b then 1 else 0)
  | .str s => parseFloat? s
  | _ => Option.none

/-- Criterion 1 alias chain (lines 72-77). -/
def technologieValue (details : Tree) : Tree :=
  tOr (get_nested_value details ["TechnologieDerStromspeicherung"])
    (tOr (get_nested_value details ["EinheitStromSpeicher", "TechnologieDerStromspeicherung"])
      (tOr (get_nested_value details ["Technologie"])
        (get_nested_value details ["Speichertechnologie"])))

/-- Criterion 1 (lines 80-83): a truthy technology value whose `str()`
contains `"Batterie"`. -/
def technologieOk (details : Tree) : Bool :=
  let t := technologieValue details
  truthy t && strContains (pyStr t) "Batterie"

/-- Criterion 2 alias chain (lines 86-91). -/
def batterietechnologieValue (details : Tree) : Tree :=
  tOr (get_nested_value details ["Batterietechnologie"])
    (tOr (get_nested_value details ["EinheitStromSpeicher", "Batterietechnologie"])
      (tOr (get_nested_value details ["BatterieTechnologie"])
        (get_nested_value details ["BatterieTechnologieEnum"])))

/-- Criterion 2 (lines 93-102): a truthy battery-technology value whose
`str()` contains one of the accepted lithium spellings. -/
def batterietechnologieOk (details : Tree) : Bool :=
  let b := batterietechnologieValue details
  let bs := if truthy b then pyStr b else ""
  truthy b &&
    (strContains bs "Lithium-Ionen" || strContains bs "LithiumIonen" ||
      strContains bs "Lithium")

/-- Criterion 3 alias chain (lines 105-112): detail-record aliases
first, then the summary record. -/
def bruttoleistungValue (details einheit : Tree) : Tree :=
  tOr (get_nested_value details ["Bruttoleistung"])
    (tOr (get_nested_value details ["EinheitStromSpeicher", "Bruttoleistung"])
      (tOr (get_nested_value details ["BruttoleistungEinheit"])
        (tOr (get_nested_value details ["BruttoLeistung"])
          (tOr (get_nested_value einheit ["Bruttoleistung"])
            (get_nested_value einheit ["Leistung"])))))

/-- Criterion 3 (lines 114-127): `None` fails; otherwise the parsed
power must strictly exceed 150 (kW), with unparseable or non-numeric
values failing via `power_kw is None` or the caught `ValueError`. -/
def bruttoleistungOk (details einheit : Tree) : Bool :=
  match bruttoleistungValue details einheit with
  | .null => false
  | bl =>
      match pyFloatOf bl with
      | some q => decide ((150 : ℚ) < q)
      | none => false

/-- Lowercased natural-person marker test (lines 152, 168): the lowering
is ASCII (the umlaut in `natürlich` is already lowercase). -/
def naturalMarker (s : String) : Bool :=
  strContains (pyLower s) "natürlich" || strContains (pyLower s) "natural"

/-- Criterion 4 direct-indicator alias chain for one field name
(lines 144-148). -/
def directFieldValue (details einheit : Tree) (field : String) : Tree :=
  tOr (get_nested_value details [field])
    (tOr (get_nested_value details ["EinheitStromSpeicher", field])
      (get_nested_value einheit [field]))

/-- Lines 143-155: scan the five direct type/legal-form fields; a truthy
value carrying a natural-person marker sets the flag (the `break` stops
at the first hit, which `List.any` reproduces). -/
def directNaturalPerson (details einheit : Tree) : Bool :=
  ["AnlagenbetreiberTyp", "BetreiberTyp", "Personenart", "Rechtsform", "PersonenArt"].any
    fun field =>
      let v := directFieldValue details einheit field
      truthy v && naturalMarker (pyStr v)

/-- Criterion 4 operator-identifier alias chain (lines 131-137). -/
def anlagenbetreiberMastr (details einheit : Tree) : Tree :=
  tOr (get_nested_value details ["AnlagenbetreiberMastrNummer"])
    (tOr (get_nested_value details ["EinheitStromSpeicher", "AnlagenbetreiberMastrNummer"])
      (tOr (get_nested_value details ["BetreiberMastrNummer"])
        (tOr (get_nested_value einheit ["AnlagenbetreiberMastrNummer"])
          (get_nested_value einheit ["BetreiberMastrNummer"]))))

/-- The nested `client.get_marktakteur_details` call of criterion 4:
either a returned record tree or a raised exception carrying its
message. -/
structure StubClient where
  get_marktakteur_details : Tree → Except String Tree

/-- Lines 163-171: scan the four type fields of the fetched operator
record (`operator_details.get(field)`; a non-mapping record yields no
field, like the empty dict the source returns for a missing payload). -/
def operatorNaturalPerson (od : Tree) : Bool :=
  ["Personenart", "PersonenArt", "Rechtsform", "Typ"].any fun field =>
    let v := get_nested_value od [field]
    truthy v && naturalMarker (pyStr v)

/-- Source `matches_criteria(details, einheit, client, einheit_nummer)` (lines
55-183): the four ordered criteria with short-circuit on the first
failure.  The nested operator fetch runs only when no direct indicator
fired, the operator identifier is truthy and a client was supplied; an
exception from it is swallowed (lines 172-175), leaving the flag as it
was.  The `einheit_nummer` argument only feeds logging and is omitted. -/
def matches_criteria (details einheit : Tree) (client : Option StubClient) : Bool :=
  if !technologieOk details then false
  else if !batterietechnologieOk details then false
  else if !bruttoleistungOk details einheit then false
  else
    let mastr := anlagenbetreiberMastr details einheit
    let direct := directNaturalPerson details einheit
    let is_natural : Bool :=
      match client with
      | some c =>
          if !direct && truthy mastr then
            match c.get_marktakteur_details mastr with
            | .ok od => operatorNaturalPerson od
            | .error _ => direct
          else direct
      | none => direct
    !is_natural

/-- Is a tree value Python `None`? -/
def isNullTree : Tree → Bool
  | .null => true
  | _ => false

/-- The power-rating resolution as claim C7 words it: the first
*non-null* value among the Bruttoleistung aliases, detail record first,
then summary record. -/
def firstNonNullPowerAlias (details einheit : Tree) : Option Tree :=
  [get_nested_value details ["Bruttoleistung"],
   get_nested_value details ["EinheitStromSpeicher", "Bruttoleistung"],
   get_nested_value details ["BruttoleistungEinheit"],
   get_nested_value details ["BruttoLeistung"],
   get_nested_value einheit ["Bruttoleistung"],
   get_nested_value einheit ["Leistung"]].find? (fun t => !isNullTree t)

/-- A detail record whose first non-null power alias is the (parseable,
below-threshold) number 0, while the next alias holds 200. -/
def detailZeroPower : Tree :=
  .dict [("TechnologieDerStromspeicherung", .str "Batterie, Stationär"),
         ("Batterietechnologie", .str "Lithium-Ionen-Akku"),
         ("Bruttoleistung", .num 0),
         ("EinheitStromSpeicher", .dict [("Bruttoleistung", .num 200)])]

/-- An empty summary record. -/
def einheitEmpty : Tree :=
  .dict []

/-- C7 counterexample: on `detailZeroPower` the first non-null alias
value is 0, which parses and is not above the 150 kW threshold — so by
the claim the criterion fails and `matches_criteria` must return
`False` — yet the code returns `True`, because the Python `or` chain
skips the falsy-but-non-null 0 and resolves the rating to the nested
200 instead. -/
theorem matches_criteria_first_non_null_cx :
    firstNonNullPowerAlias detailZeroPower einheitEmpty = some (.num 0) ∧
      pyFloatOf (.num 0) = some 0 ∧ ¬((150 : ℚ) < 0) ∧
      matches_criteria detailZeroPower einheitEmpty Option.none = true :=
  ⟨rfl, by decide, by decide, by decide⟩

/-- The spec's positive functional example: technology
`Batterie, Stationär`, sub-technology `Lithium-Ionen-Akku`, power 200
kW, operator type `Unternehmen`. -/
def unit200 : Tree :=
  .dict [("TechnologieDerStromspeicherung", .str "Batterie, Stationär"),
         ("Batterietechnologie", .str "Lithium-Ionen-Akku"),
         ("Bruttoleistung", .num 200),
         ("AnlagenbetreiberTyp", .str "Unternehmen")]

/-- The same unit with power 100 kW. -/
def unit100 : Tree :=
  .dict [("TechnologieDerStromspeicherung", .str "Batterie, Stationär"),
         ("Batterietechnologie", .str "Lithium-Ionen-Akku"),
         ("Bruttoleistung", .num 100),
         ("AnlagenbetreiberTyp", .str "Unternehmen")]

theorem bruttoleistungOk_iff (details einheit : Tree) :
    bruttoleistungOk details einheit = true
      ↔ ∃ q, pyFloatOf (bruttoleistungValue details einheit) = some q ∧ (150 : ℚ) < q := by
  unfold bruttoleistungOk
  cases hv : bruttoleistungValue details einheit with
  | null => simp [pyFloatOf]
  | bool b =>
      cases hq : pyFloatOf (Tree.bool b) with
      | none => simp [hq]
      | some q => simp [hq]
  | num q => simp [pyFloatOf]
  | str s =>
      cases hq : pyFloatOf (Tree.str s) with
      | none => simp [hq]
      | some q => simp [hq]
  | list xs => simp [pyFloatOf]
  | dict kvs => simp [pyFloatOf]

/-- C7 (amended): the power criterion resolves the rating as the first
*truthy* value of the alias chain (Python `or` skips null, zero and
empty values), parses it as a locale-neutral decimal, and only lets a
unit match when the parsed value strictly exceeds 150 kW — a missing,
falsy-everywhere or unparseable rating fails the criterion; the spec's
otherwise-matching unit with power 200 matches and the same unit with
power 100 does not. -/
theorem matches_criteria_power_threshold (details einheit : Tree)
    (client : Option StubClient)
    (h : matches_criteria details einheit client = true) :
    (∃ q, pyFloatOf (bruttoleistungValue details einheit) = some q ∧ (150 : ℚ) < q) ∧
      matches_criteria unit200 einheitEmpty Option.none = true ∧
      matches_criteria unit100 einheitEmpty Option.none = false := by
  refine ⟨?_, by decide, by decide⟩
  rw [← bruttoleistungOk_iff]
  by_contra hb
  simp only [Bool.not_eq_true] at hb
  rw [matches_criteria] at h
  simp only [hb, Bool.not_false, if_true] at h
  by_cases h1 : technologieOk details = true
  · by_cases h2 : batterietechnologieOk details = true
    · simp [h1, h2] at h
    · simp only [Bool.not_eq_true] at h2
      simp [h2] at h
  · simp only [Bool.not_eq_true] at h1
    simp [h1] at h

/-- C7 witness instance: the theorem applied to the unit with power 200,
whose match succeeds. -/
theorem matches_criteria_power_threshold_witness :
    (∃ q, pyFloatOf (bruttoleistungValue unit200 einheitEmpty) = some q ∧ (150 : ℚ) < q) ∧
      matches_criteria unit200 einheitEmpty Option.none = true ∧
      matches_criteria unit100 einheitEmpty Option.none = false :=
  matches_criteria_power_threshold unit200 einheitEmpty Option.none (by decide)

/-- C8: when the first three criteria pass, no direct natural-person
indicator fires, and the nested operator-detail fetch raises (any
message), `matches_criteria` swallows the exception and still returns
`True` — the failure never propagates (the embedding is total) and
never fails the match. -/
theorem matches_criteria_swallows_fetch_failure (details einheit : Tree)
    (c : StubClient) (msg : String)
    (h1 : technologieOk details = true)
    (h2 : batterietechnologieOk details = true)
    (h3 : bruttoleistungOk details einheit = true)
    (h4 : directNaturalPerson details einheit = false)
    (h5 : truthy (anlagenbetreiberMastr details einheit) = true)
    (h6 : c.get_marktakteur_details (anlagenbetreiberMastr details einheit)
        = .error msg) :
    matches_criteria details einheit (some c) = true := by
  rw [matches_criteria]
  simp [h1, h2, h3, h4, h5, h6]

/-- A detail record for the C8 witness: all three object criteria pass,
no direct person indicator, and an operator identifier is present. -/
def detailWithOperator : Tree :=
  .dict [("TechnologieDerStromspeicherung", .str "Batterie, Stationär"),
         ("Batterietechnologie", .str "Lithium-Ionen-Akku"),
         ("Bruttoleistung", .num 200),
         ("AnlagenbetreiberMastrNummer", .str "ABR920000000001")]

/-- C8 witness instance: a client whose nested fetch always raises. -/
theorem matches_criteria_swallows_fetch_failure_witness :
    matches_criteria detailWithOperator einheitEmpty
        (some ⟨fun _ => .error "Connection reset by peer"⟩) = true :=
  matches_criteria_swallows_fetch_failure detailWithOperator einheitEmpty
    ⟨fun _ => .error "Connection reset by peer"⟩ "Connection reset by peer"
    (by decide) (by decide) (by decide) (by decide) (by decide) rfl

/-! ### The two `flatten_dict` implementations
(`fetch_anlagenbetreiber.py` lines 161-175 and `fetch_marktakteur.py`
lines 186-211).  Both build an item list and return `dict(items)`; the
nested-mapping case extends with the sub-dict's `.items()`, so the
Python dict construction (later duplicates overwrite earlier ones)
applies at every nesting level. -/

/-- Python `dict(items)`: left-to-right insertion, later duplicate keys
overwriting earlier ones, insertion-ordered. -/
def dictOfItems (items : List (String × Tree)) : List (String × Tree) :=
  items.foldl (fun m p => dictInsert m p.1 p.2) []

/-- Is the tree a mapping? -/
def isDict : Tree → Bool
  | .dict _ => true
  | _ => false

mutual

/-- No sequence value occurs anywhere in the tree. -/
def seqFree : Tree → Bool
  | .list _ => false
  | .dict kvs => seqFreeEntries kvs
  | _ => true

/-- Predicate `seqFree` over the entries of a mapping. -/
def seqFreeEntries : List (String × Tree) → Bool
  | [] => true
  | (_, v) :: rest => seqFree v && seqFreeEntries rest

end

namespace FA

mutual

/-- Source `fetch_anlagenbetreiber.flatten_dict(d, parent_key, sep)` (lines
161-175): nested mappings recurse with the joined key, sequence values
are stringified, scalars pass through; the result is `dict(items)`.  The
source's signature requires a mapping — a non-mapping argument raises on
`d.items()` and is modelled by the empty result, a case no theorem
exercises. -/
def flatten_dict (d : Tree) (parent_key sep : String) : List (String × Tree) :=
  match d with
  | .dict kvs => dictOfItems (flattenEntries kvs parent_key sep)
  | _ => []

/-- The `for k, v in d.items()` loop of `flatten_dict`. -/
def flattenEntries : List (String × Tree) → String → String → List (String × Tree)
  | [], _, _ => []
  | (k, v) :: rest, parent, sep =>
      flattenValue v (if parent = "" then k else parent ++ sep ++ k) sep
        ++ flattenEntries rest parent sep

/-- The body of the loop for one entry: nested mapping → recurse with
the joined key; sequence → stringify; scalar → pass through. -/
def flattenValue : Tree → String → String → List (String × Tree)
  | .dict kvs, new_key, sep => flatten_dict (.dict kvs) new_key sep
  | .list xs, new_key, _ => [(new_key, .str (pyStr (.list xs)))]
  | sv, new_key, _ => [(new_key, sv)]

end

end FA

namespace FM

mutual

/-- Source `fetch_marktakteur.flatten_dict(d, parent_key, sep)` (lines
186-211): a non-mapping argument returns the singleton mapping under
`parent_key` (or the empty mapping at top level); mappings loop over
their entries and return `dict(items)`. -/
def flatten_dict (d : Tree) (parent_key sep : String) : List (String × Tree) :=
  match d with
  | .dict kvs => dictOfItems (flattenEntries kvs parent_key sep)
  | t => if parent_key ≠ "" then [(parent_key, t)] else []

/-- The entry loop of `flatten_dict`. -/
def flattenEntries : List (String × Tree) → String → String → List (String × Tree)
  | [], _, _ => []
  | (k, v) :: rest, parent, sep =>
      flattenValue v (if parent = "" then k else parent ++ sep ++ k) sep
        ++ flattenEntries rest parent sep

/-- The body of the loop for one entry: nested mappings recurse with the
joined key; a sequence whose first element is a mapping is flattened per
index and merged; any other sequence is joined into one comma-separated
string of the element `str()`s; scalars pass through. -/
def flattenValue : Tree → String → String → List (String × Tree)
  | .dict kvs, new_key, sep => flatten_dict (.dict kvs) new_key sep
  | .list (.dict kv0 :: rest0), new_key, sep =>
      flattenIndexed (.dict kv0 :: rest0) new_key sep 0
  | .list xs, new_key, _ =>
      [(new_key, .str (String.intercalate ", " (xs.map pyStr)))]
  | sv, new_key, _ => [(new_key, sv)]

/-- Comprehension `[flatten_dict(item, f"key_i", sep) for i, item in enumerate(v)]`,
merged in order: the index is joined with a literal underscore. -/
def flattenIndexed : List Tree → String → String → Nat → List (String × Tree)
  | [], _, _, _ => []
  | t :: ts, new_key, sep, i =>
      flatten_dict t (new_key ++ "_" ++ toString i) sep
        ++ flattenIndexed ts new_key sep (i + 1)

end

end FM

mutual

theorem flatten_dict_eq_on_seqFree :
    (t : Tree) → (parent sep : String) → isDict t = true → seqFree t = true →
      FA.flatten_dict t parent sep = FM.flatten_dict t parent sep
  | .dict kvs, parent, sep, _, hs => by
      simp only [FA.flatten_dict, FM.flatten_dict]
      rw [flattenEntries_eq_on_seqFree kvs parent sep (by simpa [seqFree] using hs)]

theorem flattenEntries_eq_on_seqFree :
    (kvs : List (String × Tree)) → (parent sep : String) →
      seqFreeEntries kvs = true →
      FA.flattenEntries kvs parent sep = FM.flattenEntries kvs parent sep
  | [], _, _, _ => by simp only [FA.flattenEntries, FM.flattenEntries]
  | (k, v) :: rest, parent, sep, h => by
      simp only [seqFreeEntries, Bool.and_eq_true] at h
      obtain ⟨hv, hr⟩ := h
      simp only [FA.flattenEntries, FM.flattenEntries]
      rw [flattenEntries_eq_on_seqFree rest parent sep hr]
      cases v with
      | dict kvs2 =>
          simp only [FA.flattenValue, FM.flattenValue]
          rw [flatten_dict_eq_on_seqFree (.dict kvs2)
            (if parent = "" then k else parent ++ sep ++ k) sep rfl hv]
      | list xs => simp [seqFree] at hv
      | null => simp only [FA.flattenValue, FM.flattenValue]
      | bool b => simp only [FA.flattenValue, FM.flattenValue]
      | num q => simp only [FA.flattenValue, FM.flattenValue]
      | str s => simp only [FA.flattenValue, FM.flattenValue]

end

/-- C10: on every nested mapping whose values contain no sequences at
any depth, the `flatten_dict` of `fetch_anlagenbetreiber.py` and the
`flatten_dict` of `fetch_marktakteur.py` (both invoked with their
default empty parent key and `_` separator) return identical flat
mappings; contrapositively, the two can only differ on mappings
containing sequence values. -/
theorem flatten_dict_implementations_agree (t : Tree)
    (hdict : isDict t = true) (hseq : seqFree t = true) :
    FA.flatten_dict t "" "_" = FM.flatten_dict t "" "_" :=
  flatten_dict_eq_on_seqFree t "" "_" hdict hseq

/-- A sequence-free nested mapping for the C10 witness. -/
def nestedSample : Tree :=
  .dict [("a", .str "x"),
         ("b", .dict [("c", .num 2), ("d", .null)]),
         ("e", .bool true)]

/-- C10 witness instance: both implementations flatten `nestedSample`
to the same mapping. -/
theorem flatten_dict_implementations_agree_witness :
    FA.flatten_dict nestedSample "" "_" = FM.flatten_dict nestedSample "" "_" :=
  flatten_dict_implementations_agree nestedSample rfl
    (by simp [nestedSample, seqFree, seqFreeEntries])

/-! ### Tabular merge layer: `merge_csvs`
(`fetch_anlagenbetreiber.py` lines 229-293) -/

/-- One row of a semicolon-delimited CSV as produced by
`csv.DictReader`: column name to cell string, in header order. -/
abbrev Row := List (String × String)

/-- Python `row.get(k)`: the (first) binding of the key, `None` when absent. -/
def rowGet (row : Row) (k : String) : Option String :=
  (row.find? fun p => p.1 == k).map Prod.snd

/-- The key list of a mapping. -/
def keysOf {α : Type} (m : List (String × α)) : List String :=
  m.map Prod.fst

/-- The identifier column of the input spreadsheet. -/
def id_col : String := "MaStR-Nr. des Anlagenbetreibers"

/-- The same column with the leading-tab header artifact (line 265). -/
def id_col_tab : String := "\tMaStR-Nr. des Anlagenbetreibers"

/-- Python `row.get(a) or row.get(b)`: the first operand when truthy
(present and non-empty), otherwise the second. -/
def pyOrStr (x y : Option String) : Option String :=
  match x with
  | some s => if s ≠ "" then some s else y
  | none => y

/-- Lines 265-267: resolve the identifier cell of a base row, stripping
it when truthy (a falsy value is left as found). -/
def rowMastrNum (row : Row) : Option String :=
  match pyOrStr (rowGet row id_col) (rowGet row id_col_tab) with
  | some s => if s ≠ "" then some (pyStrip s) else some s
  | none => none

/-- Python truthiness of an optional string. -/
def truthyS : Option String → Bool
  | some s => s != ""
  | none => false

/-- Insert a string into a lexicographically sorted list. -/
def insertSorted (s : String) : List String → List String
  | [] => [s]
  | t :: ts => if s ≤ t then s :: t :: ts else t :: insertSorted s ts

/-- Python `sorted(...)` for strings: lexicographic by code point. -/
def sortStrings (l : List String) : List String :=
  l.foldr insertSorted []

/-- Python `sorted(set(...))`: duplicates removed, then sorted. -/
def dedupSort (l : List String) : List String :=
  sortStrings l.dedup

/-- Python `mastr_num in anlagenbetreiber_results`. -/
def resultsContains (results : List (String × BatchEntry)) (k : String) : Bool :=
  (results.find? fun p => p.1 == k).isSome

/-- Lines 247-251: the set of flattened column names over every result
that carries truthy data, materialized sorted (line 254 sorts it before
prefixing). -/
def anlagenbetreiber_cols (results : List (String × BatchEntry)) : List String :=
  dedupSort (results.flatMap fun p =>
    match p.2.data with
    | some d => if truthy d then keysOf (FA.flatten_dict d "" "_") else []
    | none => [])

/-- Line 254: the fetched columns under the `AB_` namespace. -/
def prefixed_ab_cols (results : List (String × BatchEntry)) : List String :=
  (anlagenbetreiber_cols results).map fun c => "AB_" ++ c

/-- Line 257: base columns (the first row's header), then the prefixed
fetched columns, then the status column. -/
def all_cols (rows : List Row) (results : List (String × BatchEntry)) : List String :=
  keysOf (rows.headD []) ++ prefixed_ab_cols results ++ ["AB_error"]

/-- The csv module's rendering of one cell value: `None` becomes the
empty field, anything else its `str()`. -/
def csvStr : Tree → String
  | .null => ""
  | t => pyStr t

/-- Lines 263-291: build the merged row for one base row.  A truthy
identifier found in the result map gets the error slot and, when the
data is truthy, the `AB_`-prefixed flattened fields (otherwise the
prefixed columns are filled empty where absent); a falsy or unmatched
identifier gets the status marker and all prefixed columns emptied. -/
def mergeRow (results : List (String × BatchEntry)) (prefixedCols : List String)
    (row : Row) : Row :=
  match (if truthyS (rowMastrNum row) then
      results.find? (fun p => p.1 == (rowMastrNum row).getD "") else Option.none) with
  | some entry =>
      (match entry.2.data with
       | some d =>
           if truthy d then
             (FA.flatten_dict d "" "_").foldl
               (fun m p => dictInsert m ("AB_" ++ p.1) (csvStr p.2))
               (dictInsert row "AB_error" (entry.2.error.getD ""))
           else
             prefixedCols.foldl
               (fun m c => if (rowGet m c).isSome then m else dictInsert m c "")
               (dictInsert row "AB_error" (entry.2.error.getD ""))
       | none =>
           prefixedCols.foldl
             (fun m c => if (rowGet m c).isSome then m else dictInsert m c "")
             (dictInsert row "AB_error" (entry.2.error.getD "")))
  | none =>
      prefixedCols.foldl (fun m c => dictInsert m c "")
        (dictInsert row "AB_error"
          (if truthyS (rowMastrNum row) then "not_found" else "no_mastr_num"))

/-- Python `csv.DictWriter.writerow` with the default `extrasaction="raise"`
and `restval`: a key outside the field list raises `ValueError`
(modelled `none`); fields absent from the row are written empty. -/
def writeRow (fieldnames : List String) (r : Row) : Option Row :=
  if r.all (fun p => fieldnames.contains p.1) then
    some (fieldnames.map fun c => (c, (rowGet r c).getD ""))
  else Option.none

/-- Source `merge_csvs(stromerzeuger_rows, anlagenbetreiber_results, output)`
(lines 229-293) with the file I/O abstracted to the written row list:
`none` models both the early return on empty input (lines 240-242, no
file written) and an aborting `ValueError` from the writer. -/
def merge_csvs (rows : List Row) (results : List (String × BatchEntry)) :
    Option (List Row) :=
  if rows.isEmpty then Option.none
  else
    rows.mapM fun row =>
      writeRow (all_cols rows results) (mergeRow results (prefixed_ab_cols results) row)

theorem find?_dictInsert {α : Type} (k : String) (v : α) (k' : String) :
    ∀ m : List (String × α),
      ((dictInsert m k v).find? fun p => p.1 == k')
        = if k' = k then some (k, v) else m.find? fun p => p.1 == k' := by
  intro m
  induction m with
  | nil =>
      by_cases hk : k' = k
      · simp [dictInsert, List.find?_cons, hk]
      · simp [dictInsert, List.find?_cons, Ne.symm hk, hk]
  | cons p rest ih =>
      by_cases hk : k' = k
      · subst hk
        by_cases hp : p.1 = k'
        · have hpb : (p.1 == k') = true := by simp [hp]
          simp [dictInsert, hpb, List.find?_cons]
        · have hpb : ¬(p.1 == k') = true := by simp [hp]
          simp [dictInsert, hpb, List.find?_cons, ih]
      · by_cases hp : p.1 = k
        · have hpb : (p.1 == k) = true := by simp [hp]
          have h1 : ¬((k : String) == k') = true := by simp [Ne.symm hk]
          have h2 : ¬(p.1 == k') = true := by simp [hp, Ne.symm hk]
          simp [dictInsert, hpb, List.find?_cons, h1, h2, hk]
        · have hpb : ¬(p.1 == k) = true := by simp [hp]
          by_cases hpc : p.1 = k'
          · simp [dictInsert, hpb, List.find?_cons, hpc, hk]
          · have h2 : ¬(p.1 == k') = true := by simp [hpc]
            simp [dictInsert, hpb, List.find?_cons, h2, ih, hk]

/-- Behaviour of `rowGet` after a `dictInsert`, both cases at once. -/
theorem rowGet_dictInsert (m : Row) (k v k' : String) :
    rowGet (dictInsert m k v) k' = if k' = k then some v else rowGet m k' := by
  unfold rowGet
  rw [find?_dictInsert]
  by_cases hk : k' = k
  · simp [hk]
  · simp [hk]

theorem rowGet_foldl_insertEmpty (cols : List String) :
    ∀ (m : Row) (k : String),
      rowGet (cols.foldl (fun m c => dictInsert m c "") m) k
        = if k ∈ cols then some "" else rowGet m k := by
  induction cols with
  | nil => intro m k; simp
  | cons c cs ih =>
      intro m k
      simp only [List.foldl_cons, ih, rowGet_dictInsert, List.mem_cons]
      by_cases h1 : k ∈ cs
      · simp [h1]
      · by_cases h2 : k = c
        · simp [h1, h2]
        · simp [h1, h2]

theorem mem_insertSorted (s a : String) :
    ∀ l : List String, a ∈ insertSorted s l ↔ a = s ∨ a ∈ l := by
  intro l
  induction l with
  | nil => simp [insertSorted]
  | cons t ts ih =>
      by_cases h : s ≤ t
      · simp [insertSorted, h]
      · simp only [insertSorted, h, if_false, List.mem_cons, ih]
        tauto

theorem mem_sortStrings (a : String) :
    ∀ l : List String, a ∈ sortStrings l ↔ a ∈ l := by
  intro l
  induction l with
  | nil => simp [sortStrings]
  | cons t ts ih =>
      simp only [sortStrings, List.foldr_cons, mem_insertSorted, List.mem_cons]
      rw [show ts.foldr insertSorted [] = sortStrings ts from rfl, ih]

theorem mem_dedupSort (a : String) (l : List String) :
    a ∈ dedupSort l ↔ a ∈ l := by
  rw [dedupSort, mem_sortStrings, List.mem_dedup]

/-- Keys reachable by folding a row-extending step over a list: anything
new comes from the step. -/
theorem keys_foldl_sub {β : Type} (f : Row → β → Row) (keyok : β → String → Prop)
    (hf : ∀ m b a, a ∈ keysOf (f m b) → a ∈ keysOf m ∨ keyok b a) :
    ∀ (l : List β) (m : Row) (a : String),
      a ∈ keysOf (l.foldl f m) → a ∈ keysOf m ∨ ∃ b ∈ l, keyok b a := by
  intro l
  induction l with
  | nil => intro m a h; exact Or.inl h
  | cons b bs ih =>
      intro m a h
      rcases ih (f m b) a h with h1 | ⟨b2, hb2, hk⟩
      · rcases hf m b a h1 with h2 | h2
        · exact Or.inl h2
        · exact Or.inr ⟨b, List.mem_cons_self b bs, h2⟩
      · exact Or.inr ⟨b2, List.mem_cons_of_mem b hb2, hk⟩

theorem keys_dictInsert_sub {α : Type} (m : List (String × α)) (k : String) (v : α)
    (a : String) (h : a ∈ keysOf (dictInsert m k v)) : a ∈ keysOf m ∨ a = k := by
  have := dictInsert_keys k v m
  unfold keysOf at h ⊢
  rw [this] at h
  by_cases hk : k ∈ m.map Prod.fst
  · simp only [hk, if_true] at h
    exact Or.inl h
  · simp only [hk, if_false, List.mem_append, List.mem_singleton] at h
    exact h

theorem flatten_keys_sub_prefixed (results : List (String × BatchEntry))
    (entry : String × BatchEntry) (hm : entry ∈ results) (d : Tree)
    (hd : entry.2.data = some d) (ht : truthy d = true) (c : String)
    (hc : c ∈ keysOf (FA.flatten_dict d "" "_")) :
    "AB_" ++ c ∈ prefixed_ab_cols results := by
  unfold prefixed_ab_cols
  apply List.mem_map.mpr
  refine ⟨c, ?_, rfl⟩
  unfold anlagenbetreiber_cols
  rw [mem_dedupSort]
  exact List.mem_flatMap.mpr ⟨entry, hm, by simp [hd, ht, hc]⟩

theorem keys_mergeRow_sub (results : List (String × BatchEntry)) (row : Row)
    (a : String)
    (h : a ∈ keysOf (mergeRow results (prefixed_ab_cols results) row)) :
    a ∈ keysOf row ∨ a ∈ prefixed_ab_cols results ∨ a = "AB_error" := by
  have habsent : ∀ (m : Row) (c a : String),
      a ∈ keysOf (if (rowGet m c).isSome then m else dictInsert m c "") →
        a ∈ keysOf m ∨ a = c := by
    intro m c a ha
    by_cases hg : (rowGet m c).isSome
    · rw [if_pos hg] at ha
      exact Or.inl ha
    · rw [if_neg hg] at ha
      exact keys_dictInsert_sub m c "" a ha
  unfold mergeRow at h
  cases hfind : (if truthyS (rowMastrNum row) then
      results.find? (fun p => p.1 == (rowMastrNum row).getD "") else Option.none) with
  | none =>
      rw [hfind] at h
      simp only [] at h
      rcases keys_foldl_sub (fun m c => dictInsert m c "") (fun b a => a = b)
          (fun m b a hab => keys_dictInsert_sub m b "" a hab)
          (prefixed_ab_cols results) _ a h with h1 | ⟨b, hb, rfl⟩
      · rcases keys_dictInsert_sub row "AB_error" _ a h1 with h2 | h2
        · exact Or.inl h2
        · exact Or.inr (Or.inr h2)
      · exact Or.inr (Or.inl hb)
  | some entry =>
      rw [hfind] at h
      simp only [] at h
      have hment : entry ∈ results := by
        cases htr : truthyS (rowMastrNum row)
        · rw [htr] at hfind
          simp at hfind
        · rw [htr] at hfind
          simp only [if_true] at hfind
          exact List.mem_of_find?_eq_some hfind
      have hr1 : ∀ a, a ∈ keysOf (dictInsert row "AB_error" (entry.2.error.getD "")) →
          a ∈ keysOf row ∨ a = "AB_error" :=
        fun a ha => keys_dictInsert_sub row "AB_error" _ a ha
      cases hdata : entry.2.data with
      | none =>
          rw [hdata] at h
          simp only [] at h
          rcases keys_foldl_sub _ (fun b a => a = b) habsent
              (prefixed_ab_cols results) _ a h with h1 | ⟨b, hb, rfl⟩
          · rcases hr1 a h1 with h2 | h2
            · exact Or.inl h2
            · exact Or.inr (Or.inr h2)
          · exact Or.inr (Or.inl hb)
      | some d =>
          rw [hdata] at h
          simp only [] at h
          by_cases htd : truthy d = true
          · rw [if_pos htd] at h
            rcases keys_foldl_sub
                (fun m (p : String × Tree) => dictInsert m ("AB_" ++ p.1) (csvStr p.2))
                (fun p a => a = "AB_" ++ p.1)
                (fun m p a hab => keys_dictInsert_sub m ("AB_" ++ p.1) (csvStr p.2) a hab)
                (FA.flatten_dict d "" "_") _ a h with h1 | ⟨p, hp, rfl⟩
            · rcases hr1 a h1 with h2 | h2
              · exact Or.inl h2
              · exact Or.inr (Or.inr h2)
            · exact Or.inr (Or.inl (flatten_keys_sub_prefixed results entry hment d
                hdata htd p.1 (List.mem_map.mpr ⟨p, hp, rfl⟩)))
          · rw [if_neg htd] at h
            rcases keys_foldl_sub _ (fun b a => a = b) habsent
                (prefixed_ab_cols results) _ a h with h1 | ⟨b, hb, rfl⟩
            · rcases hr1 a h1 with h2 | h2
              · exact Or.inl h2
              · exact Or.inr (Or.inr h2)
            · exact Or.inr (Or.inl hb)

theorem writeRow_eq_some (fieldnames : List String) (r : Row)
    (h : ∀ a ∈ keysOf r, a ∈ fieldnames) :
    writeRow fieldnames r = some (fieldnames.map fun c => (c, (rowGet r c).getD "")) := by
  unfold writeRow
  rw [if_pos]
  rw [List.all_eq_true]
  intro p hp
  exact List.elem_eq_true_of_mem (h p.1 (List.mem_map.mpr ⟨p, hp, rfl⟩))

theorem mapM_option_eq_map {α β : Type} (f : α → Option β) (g : α → β) :
    ∀ l : List α, (∀ a ∈ l, f a = some (g a)) → l.mapM f = some (l.map g) := by
  intro l
  induction l with
  | nil => intro _; rfl
  | cons a l ih =>
      intro h
      rw [List.mapM_cons, h a (List.mem_cons_self a l),
        ih (fun b hb => h b (List.mem_cons_of_mem a hb))]
      rfl

theorem rowGet_map_self (f : String → String) :
    ∀ (cols : List String) (c : String), c ∈ cols →
      rowGet (cols.map fun c' => (c', f c')) c = some (f c) := by
  intro cols
  induction cols with
  | nil => intro c hc; cases hc
  | cons c0 cs ih =>
      intro c hc
      by_cases h : c0 = c
      · subst h
        simp [rowGet, List.find?_cons]
      · have hb : ¬(c0 == c) = true := by simp [h]
        have hc2 : c ∈ cs := by
          rcases List.mem_cons.mp hc with h1 | h1
          · exact absurd h1.symm h
          · exact h1
        simpa [rowGet, List.find?_cons, hb] using ih c hc2

theorem getD_map_of_lt {α β : Type} (f : α → β) (l : List α) (i : Nat)
    (h : i < l.length) (da : α) (db : β) :
    (l.map f).getD i db = f (l.getD i da) := by
  simp [List.getD_eq_getElem?_getD, List.getElem?_map, List.getElem?_eq_getElem h]

/-- C9 (amended): for every nonempty list of base rows sharing one
header key set and every batch result map none of whose fetched records
flattens to a field named `error` (so the status column `AB_error` is
not among the prefixed fetched columns), `merge_csvs` writes exactly one
output row per base row, in the base rows' order, and every output row
has the same column list — the base columns, the prefixed (`AB_`)
fetched columns, and the status column; a row with a falsy identifier
gets the `no_mastr_num` marker and a row with an unmatched identifier
the `not_found` marker, both with empty values in all prefixed
columns. -/
theorem merge_csvs_complete (rows : List Row) (results : List (String × BatchEntry))
    (hne : rows ≠ [])
    (hshare : ∀ r ∈ rows, ∀ k ∈ keysOf r, k ∈ keysOf (rows.headD []))
    (hnoerr : "AB_error" ∉ prefixed_ab_cols results) :
    ∃ out, merge_csvs rows results = some out ∧
      out.length = rows.length ∧
      (∀ orow ∈ out, keysOf orow = all_cols rows results) ∧
      (∀ i, i < rows.length →
        (truthyS (rowMastrNum (rows.getD i [])) = false →
          rowGet (out.getD i []) "AB_error" = some "no_mastr_num" ∧
          ∀ c ∈ prefixed_ab_cols results, rowGet (out.getD i []) c = some "") ∧
        (truthyS (rowMastrNum (rows.getD i [])) = true →
          resultsContains results ((rowMastrNum (rows.getD i [])).getD "") = false →
          rowGet (out.getD i []) "AB_error" = some "not_found" ∧
          ∀ c ∈ prefixed_ab_cols results, rowGet (out.getD i []) c = some "")) := by
  have hABmem : "AB_error" ∈ all_cols rows results := by
    simp [all_cols]
  have hpmem : ∀ c ∈ prefixed_ab_cols results, c ∈ all_cols rows results := by
    intro c hc
    simp [all_cols, hc]
  have hcolsub : ∀ row ∈ rows, ∀ a ∈ keysOf (mergeRow results (prefixed_ab_cols results) row),
      a ∈ all_cols rows results := by
    intro row hrow a ha
    rcases keys_mergeRow_sub results row a ha with h1 | h1 | h1
    · unfold all_cols
      exact List.mem_append.mpr (Or.inl (List.mem_append.mpr
        (Or.inl (hshare row hrow a h1))))
    · exact hpmem a h1
    · unfold all_cols
      simp [h1]
  have hwrite : ∀ row ∈ rows,
      writeRow (all_cols rows results) (mergeRow results (prefixed_ab_cols results) row)
        = some ((all_cols rows results).map fun c =>
            (c, (rowGet (mergeRow results (prefixed_ab_cols results) row) c).getD "")) :=
    fun row hrow => writeRow_eq_some _ _ (hcolsub row hrow)
  refine ⟨rows.map fun row => (all_cols rows results).map fun c =>
      (c, (rowGet (mergeRow results (prefixed_ab_cols results) row) c).getD ""), ?_, ?_, ?_, ?_⟩
  · unfold merge_csvs
    rw [if_neg (by simpa using hne)]
    exact mapM_option_eq_map _ _ rows hwrite
  · simp
  · intro orow horow
    obtain ⟨row, _, rfl⟩ := List.mem_map.mp horow
    simp only [keysOf, List.map_map]
    exact (List.map_congr_left fun c _ => rfl).trans (List.map_id _)
  · intro i hi
    have hout : (rows.map fun row => (all_cols rows results).map fun c =>
        (c, (rowGet (mergeRow results (prefixed_ab_cols results) row) c).getD "")).getD i []
        = (all_cols rows results).map fun c =>
            (c, (rowGet (mergeRow results (prefixed_ab_cols results) (rows.getD i [])) c).getD "") :=
      getD_map_of_lt _ rows i hi [] []
    constructor
    · intro htr
      have hmr : mergeRow results (prefixed_ab_cols results) (rows.getD i [])
          = (prefixed_ab_cols results).foldl (fun m c => dictInsert m c "")
              (dictInsert (rows.getD i []) "AB_error" "no_mastr_num") := by
        simp only [mergeRow, htr, Bool.false_eq_true, if_false]
      have hget : ∀ c, rowGet (mergeRow results (prefixed_ab_cols results) (rows.getD i [])) c
          = if c ∈ prefixed_ab_cols results then some ""
            else if c = "AB_error" then some "no_mastr_num"
            else rowGet (rows.getD i []) c := by
        intro c
        rw [hmr, rowGet_foldl_insertEmpty, rowGet_dictInsert]
      constructor
      · rw [hout, rowGet_map_self _ _ "AB_error" hABmem, hget "AB_error"]
        simp [hnoerr]
      · intro c hc
        rw [hout, rowGet_map_self _ _ c (hpmem c hc), hget c]
        simp [hc]
    · intro htr hcont
      have hfindnone : results.find? (fun p => p.1 == (rowMastrNum (rows.getD i [])).getD "")
          = none := by
        unfold resultsContains at hcont
        exact Option.not_isSome_iff_eq_none.mp (by rw [hcont]; simp)
      have hmr : mergeRow results (prefixed_ab_cols results) (rows.getD i [])
          = (prefixed_ab_cols results).foldl (fun m c => dictInsert m c "")
              (dictInsert (rows.getD i []) "AB_error" "not_found") := by
        simp only [mergeRow, htr, eq_self_iff_true, if_true, hfindnone]
      have hget : ∀ c, rowGet (mergeRow results (prefixed_ab_cols results) (rows.getD i [])) c
          = if c ∈ prefixed_ab_cols results then some ""
            else if c = "AB_error" then some "not_found"
            else rowGet (rows.getD i []) c := by
        intro c
        rw [hmr, rowGet_foldl_insertEmpty, rowGet_dictInsert]
      constructor
      · rw [hout, rowGet_map_self _ _ "AB_error" hABmem, hget "AB_error"]
        simp [hnoerr]
      · intro c hc
        rw [hout, rowGet_map_self _ _ c (hpmem c hc), hget c]
        simp [hc]

/-- One base row whose identifier is not in the result map. -/
def mergeCxRows : List Row :=
  [[(id_col, "SNB948000000001")]]

/-- A result map whose only record flattens to a field named `error`,
so the prefixed column set contains `AB_error` itself. -/
def mergeCxResults : List (String × BatchEntry) :=
  [("SNB948000000099", ⟨some (.dict [("error", .str "x")]), Option.none⟩)]

/-- C9 counterexample: with a fetched record carrying a field named
`error`, the loop that empties the prefixed columns (lines 288-289) runs
after the status assignment (line 287) and overwrites `AB_error`, so the
unmatched base row is written with an empty status instead of the
explicit `not_found` marker the claim promises. -/
theorem merge_csvs_marker_overwritten_cx :
    (merge_csvs mergeCxRows mergeCxResults).isSome = true ∧
      rowGet (((merge_csvs mergeCxRows mergeCxResults).getD []).headD []) "AB_error"
        = some "" ∧
      rowGet (((merge_csvs mergeCxRows mergeCxResults).getD []).headD []) "AB_error"
        ≠ some "not_found" := by
  have hp : prefixed_ab_cols mergeCxResults = ["AB_error"] := by
    simp [prefixed_ab_cols, anlagenbetreiber_cols, mergeCxResults, truthy,
      FA.flatten_dict, FA.flattenEntries, FA.flattenValue, dictOfItems, dictInsert,
      keysOf, dedupSort, sortStrings, insertSorted]
  have hall : all_cols mergeCxRows mergeCxResults = [id_col, "AB_error", "AB_error"] := by
    unfold all_cols
    rw [hp]
    rfl
  have hstep : merge_csvs mergeCxRows mergeCxResults
      = [[(id_col, "SNB948000000001")]].mapM fun row =>
          writeRow (all_cols mergeCxRows mergeCxResults)
            (mergeRow mergeCxResults (prefixed_ab_cols mergeCxResults) row) := by
    unfold merge_csvs
    rw [if_neg (by decide)]
    rfl
  have hm : merge_csvs mergeCxRows mergeCxResults
      = some [[(id_col, "SNB948000000001"), ("AB_error", ""), ("AB_error", "")]] := by
    rw [hstep, hp, hall]
    rfl
  rw [hm]
  exact ⟨rfl, rfl, by decide⟩

/-- Base rows for the C9 witness: one row with an unmatched identifier,
one row with no identifier column at all. -/
def witRows : List Row :=
  [[(id_col, "SNB948000000001")], []]

/-- A result map for the C9 witness whose only entry failed (no data),
so there are no prefixed columns. -/
def witResults : List (String × BatchEntry) :=
  [("SNB948000000088", ⟨Option.none, some "not_found"⟩)]

/-- C9 witness instance: the amended merge theorem applied to concrete
rows — one unmatched, one identifier-less. -/
theorem merge_csvs_complete_witness :
    ∃ out, merge_csvs witRows witResults = some out ∧
      out.length = witRows.length ∧
      (∀ orow ∈ out, keysOf orow = all_cols witRows witResults) ∧
      (∀ i, i < witRows.length →
        (truthyS (rowMastrNum (witRows.getD i [])) = false →
          rowGet (out.getD i []) "AB_error" = some "no_mastr_num" ∧
          ∀ c ∈ prefixed_ab_cols witResults, rowGet (out.getD i []) c = some "") ∧
        (truthyS (rowMastrNum (witRows.getD i [])) = true →
          resultsContains witResults ((rowMastrNum (witRows.getD i [])).getD "") = false →
          rowGet (out.getD i []) "AB_error" = some "not_found" ∧
          ∀ c ∈ prefixed_ab_cols witResults, rowGet (out.getD i []) c = some "")) :=
  merge_csvs_complete witRows witResults (by decide) (by decide) (by decide)

end Mastr
